import Mathlib

/-!
# concurrent-webservers: three programs that run two HTTP servers concurrently

A shallow embedding of `1_concurrent_server.go`, `2_graceful_server.go` and
`3_waitgroup_server.go`.

* The `http` part models a response writer, handler bodies, the serve mux and
  the server value built by each task.
* The goroutine part models every function of the programs as a straight-line
  list of statements, and the process as a pool of goroutines stepping over
  shared state (the cancellation context, the wait group, the signal channel,
  the servers and standard output).
-/

namespace ConcurrentWebservers

/-! ## net/http: requests, response writers, handlers, mux, server -/

namespace http

/-- The constant `http.StatusOK`. -/
def StatusOK : Nat := 200

/-- The constant `http.StatusNotFound`, the reply of the mux when no pattern matches. -/
def StatusNotFound : Nat := 404

/-- The bytes of a Go string, `[]byte(s)`: its UTF-8 encoding. -/
def bytes (s : String) : List UInt8 := s.toUTF8.data.toList

/-- An incoming request `r *http.Request`, as far as a handler could inspect it. -/
structure Request where
  method : String
  path : String
  headers : List (String × String)
  body : List UInt8
deriving DecidableEq, Repr

/-- What a `http.ResponseWriter` has sent so far: the status line once the
header is written, and the body bytes. -/
structure ResponseWriter where
  status : Option Nat
  body : List UInt8
deriving DecidableEq, Repr

/-- A fresh response writer: nothing written yet. -/
def ResponseWriter.fresh : ResponseWriter := { status := none, body := [] }

/-- The call `w.WriteHeader(code)`: the first call fixes the status, later calls are ignored. -/
def ResponseWriter.WriteHeader (w : ResponseWriter) (code : Nat) : ResponseWriter :=
  match w.status with
  | none => { w with status := some code }
  | some _ => w

/-- The call `w.Write(b)`: writes the header with `StatusOK` if none was written, then appends `b`. -/
def ResponseWriter.Write (w : ResponseWriter) (b : List UInt8) : ResponseWriter :=
  let w1 := w.WriteHeader StatusOK
  { w1 with body := w1.body ++ b }

/-- The statements that occur in the handler closures of the three programs. -/
inductive HStmt where
  | writeHeader (code : Nat)
  | write (s : String)
deriving DecidableEq, Repr

/-- A handler closure `func(w http.ResponseWriter, r *http.Request)`: its body. -/
abbrev HandlerFunc := List HStmt

/-- One statement of a handler body, run on the writer `w` for the request `r`. -/
def HStmt.exec (_r : Request) (w : ResponseWriter) : HStmt → ResponseWriter
  | .writeHeader code => w.WriteHeader code
  | .write s => w.Write (bytes s)

/-- The call `h(w, r)`: the statements of the body in order. -/
def HandlerFunc.ServeHTTP (h : HandlerFunc) (w : ResponseWriter) (r : Request) : ResponseWriter :=
  h.foldl (fun acc st => st.exec r acc) w

/-- A `http.ServeMux`: the registered patterns with their handlers. -/
structure ServeMux where
  entries : List (String × HandlerFunc)
deriving DecidableEq, Repr

/-- The call `http.NewServeMux()`. -/
def NewServeMux : ServeMux := { entries := [] }

/-- The call `mux.HandleFunc(pattern, h)`. -/
def ServeMux.HandleFunc (mux : ServeMux) (pattern : String) (h : HandlerFunc) : ServeMux :=
  { entries := mux.entries ++ [(pattern, h)] }

/-- Whether a registered pattern matches a request path: a pattern ending in a
slash matches every path it begins, any other pattern matches only itself. -/
def patternMatches (pattern path : String) : Bool :=
  if pattern.back = '/' then pattern.data.isPrefixOf path.data else pattern = path

/-- The entry a path is routed to: the longest matching pattern. -/
def ServeMux.route (mux : ServeMux) (path : String) : Option (String × HandlerFunc) :=
  mux.entries.foldl
    (fun best e =>
      if patternMatches e.1 path then
        match best with
        | none => some e
        | some b => if b.1.length < e.1.length then some e else some b
      else best)
    none

/-- The reply `http.NotFound` gives when no pattern matches. -/
def NotFound (w : ResponseWriter) : ResponseWriter :=
  (w.WriteHeader StatusNotFound).Write (bytes "404 page not found\n")

/-- The mux as a handler: dispatch on the request path. -/
def ServeMux.ServeHTTP (mux : ServeMux) (w : ResponseWriter) (r : Request) : ResponseWriter :=
  match mux.route r.path with
  | some e => e.2.ServeHTTP w r
  | none => NotFound w

/-- The value `http.Server{Addr: ..., Handler: mux}`. -/
structure Server where
  Addr : String
  Handler : ServeMux
deriving DecidableEq, Repr

/-- The complete response a server gives to one request. -/
def Server.respond (srv : Server) (r : Request) : ResponseWriter :=
  srv.Handler.ServeHTTP ResponseWriter.fresh r

end http

/-! ## Program 1: the two server constructors of `1_concurrent_server.go` -/

namespace ConcurrentServer

/-- The function `newHelloWorldServer` of `1_concurrent_server.go`. -/
def newHelloWorldServer : http.Server :=
  let mux := http.NewServeMux
  let mux := mux.HandleFunc "/" [.writeHeader http.StatusOK, .write "Hello, world!"]
  { Addr := ":7000", Handler := mux }

/-- The function `newHowAreYouServer` of `1_concurrent_server.go`. -/
def newHowAreYouServer : http.Server :=
  let mux := http.NewServeMux
  let mux := mux.HandleFunc "/" [.writeHeader http.StatusOK, .write "How are you?"]
  { Addr := ":8000", Handler := mux }

end ConcurrentServer

/-! ## Errors, contexts, signals -/

/-- The values of Go's `error` interface the programs can meet. Errors are
compared by identity, so `other` is never equal to a sentinel. -/
inductive Err where
  | nil
  | ErrServerClosed
  | DeadlineExceeded
  | other (msg : String)
deriving DecidableEq, Repr

/-- The constant `time.Second`, in nanoseconds. -/
def Second : Nat := 1000000000

/-- A `context.Context` value, by the way it was derived. -/
inductive Ctx where
  | Background
  | WithCancel (parent : Ctx)
  | WithTimeout (parent : Ctx) (d : Nat)
deriving DecidableEq, Repr

/-- Whether a context is done, given whether the cancel function of main has
been called (the only cancel function called before a watcher returns) and the
time elapsed since the context was created. -/
def Ctx.isDone (cancelled : Bool) (elapsed : Nat) : Ctx → Bool
  | .Background => false
  | .WithCancel parent => cancelled || parent.isDone cancelled elapsed
  | .WithTimeout parent d => decide (d ≤ elapsed) || parent.isDone cancelled elapsed

/-- The shared context main creates: `context.WithCancel(context.Background())`. -/
def sharedCtx : Ctx := .WithCancel .Background

/-- The termination signals the programs register for (`os.Interrupt` is `SIGINT`). -/
inductive Signal where
  | SIGINT
  | SIGTERM
deriving DecidableEq, Repr

/-! ## Goroutines and statements -/

/-- The two server tasks: task A (hello world) and task B (how are you). -/
inductive Task where
  | helloWorld
  | howAreYou
deriving DecidableEq, Repr

/-- The functions that run as goroutines: main, a task function, and the
`go func() {...}()` closure inside a task function (its watcher). -/
inductive Fn where
  | main
  | server (t : Task)
  | watcher (t : Task)
deriving DecidableEq, Repr

/-- The task whose server a function works on. -/
def Fn.task : Fn → Option Task
  | .main => none
  | .server t => some t
  | .watcher t => some t

/-- The statements of programs 2 and 3. An `if err := call(); cond { Printf }`
is two statements: the call, which assigns `err`, and the guarded `Printf`. -/
inductive Stmt where
  | wgAdd (delta : Int)
  | withCancel
  | go (f : Fn)
  | Println (s : String)
  | Print (s : String)
  | makeSignals (cap : Nat)
  | Notify (sigs : List Signal)
  | recvSignal
  | cancel
  | wgWait
  | NewServeMux
  | HandleFunc (pattern : String) (h : http.HandlerFunc)
  | newServer (addr : String)
  | ListenAndServe
  | ifErrNeServerClosedPrintf (format : String)
  | recvDone
  | withTimeout (parent : Ctx) (d : Nat)
  | deferCancel
  | Shutdown
  | ifErrNeNilPrintf (format : String)
  | wgDone
deriving DecidableEq, Repr

/-- The library calls that block until the environment makes them return a value. -/
def Stmt.isCall : Stmt → Bool
  | .ListenAndServe => true
  | .Shutdown => true
  | _ => false

/-- A program: the body of each function. -/
abbrev Program := Fn → List Stmt

/-- What has been observed of a run, in order. -/
inductive Event where
  | Println (s : String)
  | Print (s : String)
  | Printf (format : String) (arg : Err)
  | ShutdownCall (t : Task) (ctx : Option Ctx) (result : Err)
  | Done (f : Fn)
deriving DecidableEq, Repr

/-- How the process stands: running, ended by main returning, crashed by a
panic, or killed by a signal nobody registered for. -/
inductive ProcStatus where
  | running
  | exited
  | panicked
  | killed
deriving DecidableEq, Repr

/-- The state shared by all goroutines. -/
structure Shared where
  status : ProcStatus
  wg : Int
  cancelled : Bool
  sigCap : Nat
  notified : List Signal
  signals : List Signal
  shutdown : List Task
  events : List Event
deriving DecidableEq, Repr

/-- The local variables of a goroutine. -/
structure Local where
  mux : Option http.ServeMux
  server : Option http.Server
  err : Err
  shutCtx : Option Ctx
  deferred : Nat
deriving DecidableEq, Repr

/-- A goroutine: the function it runs, its program counter, its locals, and
whether it has returned. -/
structure Goroutine where
  fn : Fn
  pc : Nat
  lo : Local
  returned : Bool
deriving DecidableEq, Repr

/-- The whole process. -/
structure State where
  sh : Shared
  pool : List Goroutine
deriving DecidableEq, Repr

/-- The shared state at process start. -/
def Shared.init : Shared :=
  { status := .running, wg := 0, cancelled := false, sigCap := 0, notified := [],
    signals := [], shutdown := [], events := [] }

/-- Fresh locals. -/
def Local.init : Local :=
  { mux := none, server := none, err := .nil, shutCtx := none, deferred := 0 }

/-- The goroutine a `go f(...)` statement creates; a closure sees the mux and
server of the function that encloses it. -/
def spawn (parent : Local) (f : Fn) : Goroutine :=
  { fn := f, pc := 0, lo := { Local.init with mux := parent.mux, server := parent.server },
    returned := false }

/-- The process at start: main alone. -/
def State.init : State :=
  { sh := Shared.init, pool := [spawn Local.init .main] }

/-- Record an event. -/
def Shared.emit (sh : Shared) (e : Event) : Shared :=
  { sh with events := sh.events ++ [e] }

/-- The call `wg.Add(delta)` (and `wg.Done()`, which is `wg.Add(-1)`): the
counter is updated, and a negative result panics. -/
def Shared.wgAdd (sh : Shared) (delta : Int) : Shared :=
  let v := sh.wg + delta
  { sh with wg := v, status := if v < 0 then .panicked else sh.status }

/-- One statement of goroutine `f`. The result is `none` when the statement is
not enabled: the process is over, a blocking statement still waits, or the
environment input does not fit (a library call needs a returned value, any
other statement takes none). Otherwise the new shared state, the new locals and
the function to start as a new goroutine, if any. -/
def execStmt (f : Fn) (sh : Shared) (lo : Local) (st : Stmt) (input : Option Err) :
    Option (Shared × Local × Option Fn) :=
  if sh.status ≠ .running then none else
  match st, input with
  | .wgAdd d, none => some (sh.wgAdd d, lo, none)
  | .withCancel, none => some (sh, lo, none)
  | .go g, none => some (sh, lo, some g)
  | .Println s, none => some (sh.emit (.Println s), lo, none)
  | .Print s, none => some (sh.emit (.Print s), lo, none)
  | .makeSignals cap, none => some ({ sh with sigCap := cap, signals := [] }, lo, none)
  | .Notify sigs, none => some ({ sh with notified := sh.notified ++ sigs }, lo, none)
  | .recvSignal, none =>
      match sh.signals with
      | [] => none
      | _ :: rest => some ({ sh with signals := rest }, lo, none)
  | .cancel, none => some ({ sh with cancelled := true }, lo, none)
  | .wgWait, none => if sh.wg = 0 then some (sh, lo, none) else none
  | .NewServeMux, none => some (sh, { lo with mux := some http.NewServeMux }, none)
  | .HandleFunc pattern h, none =>
      match lo.mux with
      | some m => some (sh, { lo with mux := some (m.HandleFunc pattern h) }, none)
      | none => none
  | .newServer addr, none =>
      match lo.mux with
      | some m => some (sh, { lo with server := some { Addr := addr, Handler := m } }, none)
      | none => none
  | .ListenAndServe, some e =>
      match lo.server with
      | some _ => some (sh, { lo with err := e }, none)
      | none => none
  | .ifErrNeServerClosedPrintf format, none =>
      if lo.err = .ErrServerClosed then some (sh, lo, none)
      else some (sh.emit (.Printf format lo.err), lo, none)
  | .recvDone, none => if sharedCtx.isDone sh.cancelled 0 then some (sh, lo, none) else none
  | .withTimeout parent d, none =>
      some (sh, { lo with shutCtx := some (.WithTimeout parent d) }, none)
  | .deferCancel, none => some (sh, { lo with deferred := lo.deferred + 1 }, none)
  | .Shutdown, some e =>
      match f.task, lo.server with
      | some t, some _ =>
          some (({ sh with shutdown := sh.shutdown ++ [t] }).emit (.ShutdownCall t lo.shutCtx e),
            { lo with err := e }, none)
      | _, _ => none
  | .ifErrNeNilPrintf format, none =>
      if lo.err = .nil then some (sh, lo, none)
      else some (sh.emit (.Printf format lo.err), lo, none)
  | .wgDone, none => some ((sh.emit (.Done f)).wgAdd (-1), lo, none)
  | _, _ => none

/-- A goroutine running alone: its statements in order, each library call
taking its returned value from `rets`. The result is `none` when some statement
is not enabled. -/
def runSeq (f : Fn) : List Stmt → List Err → Shared × Local → Option (Shared × Local)
  | [], _, c => some c
  | st :: rest, rets, (sh, lo) =>
      if st.isCall then
        match rets with
        | [] => none
        | e :: rets1 =>
            match execStmt f sh lo st (some e) with
            | some (sh1, lo1, _) => runSeq f rest rets1 (sh1, lo1)
            | none => none
      else
        match execStmt f sh lo st none with
        | some (sh1, lo1, _) => runSeq f rest rets (sh1, lo1)
        | none => none

/-- What the scheduler and the environment can do next: let goroutine `i`
execute its next statement, make the library call goroutine `i` is blocked in
return `e`, or deliver a signal to the process. -/
inductive Action where
  | run (i : Nat)
  | ret (i : Nat) (e : Err)
  | signal (sig : Signal)
deriving DecidableEq, Repr

/-- Delivery of a signal: buffered in the channel when registered and there is
room, dropped when the buffer is full, and fatal when nobody registered for it. -/
def deliver (sh : Shared) (sig : Signal) : Option Shared :=
  if sh.status ≠ .running then none
  else if sig ∈ sh.notified then
    if sh.signals.length < sh.sigCap then some { sh with signals := sh.signals ++ [sig] }
    else some sh
  else some { sh with status := .killed }

/-- Goroutine `i` moves: it executes the statement at its program counter, or,
at the end of its body, returns (running its deferred calls); when main
returns the process exits. -/
def stepGoroutine (p : Program) (s : State) (i : Nat) (input : Option Err) : Option State :=
  match s.pool[i]? with
  | none => none
  | some g =>
      match (p g.fn)[g.pc]? with
      | some st =>
          match execStmt g.fn s.sh g.lo st input with
          | some (sh1, lo1, sp) =>
              let pool1 := s.pool.set i { g with pc := g.pc + 1, lo := lo1 }
              some { sh := sh1,
                     pool := match sp with
                       | some h => pool1 ++ [spawn lo1 h]
                       | none => pool1 }
          | none => none
      | none =>
          if s.sh.status ≠ .running ∨ g.returned ∨ input ≠ none then none
          else
            some { sh := if g.fn = .main then { s.sh with status := .exited } else s.sh,
                   pool := s.pool.set i { g with returned := true,
                                                 lo := { g.lo with deferred := 0 } } }

/-- One step of the process. -/
def step (p : Program) (s : State) : Action → Option State
  | .run i => stepGoroutine p s i none
  | .ret i e => stepGoroutine p s i (some e)
  | .signal sig => (deliver s.sh sig).map fun sh1 => { s with sh := sh1 }

/-- A sequence of steps. -/
def runTrace (p : Program) (s : State) : List Action → Option State
  | [] => some s
  | a :: rest => (step p s a).bind fun s1 => runTrace p s1 rest

/-- The states the process can be in: those some sequence of steps leads to
from the start. -/
def Reachable (p : Program) (s : State) : Prop :=
  ∃ tr : List Action, runTrace p State.init tr = some s

/-! ## Program 2: `2_graceful_server.go` -/

namespace GracefulServer

/-- The function `main` of `2_graceful_server.go`. -/
def main : List Stmt :=
  [ .withCancel,
    .go (.server .helloWorld),
    .go (.server .howAreYou),
    .Println "All servers are started",
    .makeSignals 1,
    .Notify [.SIGINT, .SIGTERM],
    .recvSignal,
    .cancel ]

/-- The closure `go func() {...}()` inside `newHelloWorldGracefulServer`. -/
def newHelloWorldGracefulServer_watcher : List Stmt :=
  [ .Print "Waiting to shutdown",
    .recvDone,
    .withTimeout .Background (5 * Second),
    .deferCancel,
    .Print "Shutting down",
    .Shutdown,
    .ifErrNeNilPrintf "error shutting down the hello world server: %s\n",
    .Println "the hello world server is closed" ]

/-- The function `newHelloWorldGracefulServer`. -/
def newHelloWorldGracefulServer : List Stmt :=
  [ .NewServeMux,
    .HandleFunc "/" [.writeHeader http.StatusOK, .write "Hello, world!"],
    .newServer ":7000",
    .go (.watcher .helloWorld),
    .Println "the hello world server is starting",
    .ListenAndServe,
    .ifErrNeServerClosedPrintf "error starting the hello world server: %s\n",
    .Println "the hello world server is closing" ]

/-- The closure `go func() {...}()` inside `newHowAreYouGracefulServer`. -/
def newHowAreYouGracefulServer_watcher : List Stmt :=
  [ .recvDone,
    .withTimeout .Background (5 * Second),
    .deferCancel,
    .Shutdown,
    .ifErrNeNilPrintf "error shutting down the how are you server: %s\n",
    .Println "the how are you server is closed" ]

/-- The function `newHowAreYouGracefulServer`. -/
def newHowAreYouGracefulServer : List Stmt :=
  [ .NewServeMux,
    .HandleFunc "/" [.writeHeader http.StatusOK, .write "How are you?"],
    .newServer ":8000",
    .go (.watcher .howAreYou),
    .Println "the how are you server is starting",
    .ListenAndServe,
    .ifErrNeServerClosedPrintf "error starting the how are you server: %s\n",
    .Println "the how are you server is closing" ]

/-- Program 2. -/
def program : Program
  | .main => main
  | .server .helloWorld => newHelloWorldGracefulServer
  | .watcher .helloWorld => newHelloWorldGracefulServer_watcher
  | .server .howAreYou => newHowAreYouGracefulServer
  | .watcher .howAreYou => newHowAreYouGracefulServer_watcher

end GracefulServer

/-! ## Program 3: `3_waitgroup_server.go` -/

namespace WaitgroupServer

/-- The function `main` of `3_waitgroup_server.go`. -/
def main : List Stmt :=
  [ .wgAdd 1,
    .withCancel,
    .go (.server .helloWorld),
    .go (.server .howAreYou),
    .Println "All servers are started",
    .makeSignals 1,
    .Notify [.SIGINT, .SIGINT, .SIGTERM],
    .recvSignal,
    .Println "Terminating ",
    .cancel,
    .wgWait ]

/-- The closure `go func() {...}()` inside `newHelloWorldWaitGracefulServer`. -/
def newHelloWorldWaitGracefulServer_watcher : List Stmt :=
  [ .recvDone,
    .withTimeout .Background (5 * Second),
    .deferCancel,
    .Shutdown,
    .ifErrNeNilPrintf "error shutting down the hello world server: %s\n",
    .Println "the hello world server is closed",
    .wgDone ]

/-- The function `newHelloWorldWaitGracefulServer`. -/
def newHelloWorldWaitGracefulServer : List Stmt :=
  [ .NewServeMux,
    .HandleFunc "/" [.writeHeader http.StatusOK, .write "Hello, world!"],
    .newServer ":7000",
    .go (.watcher .helloWorld),
    .Println "the hello world server is starting",
    .ListenAndServe,
    .ifErrNeServerClosedPrintf "error starting the hello world server: %s\n",
    .Println "the hello world server is closing" ]

/-- The closure `go func() {...}()` inside `newHowAreYouWaitGracefulServer`. -/
def newHowAreYouWaitGracefulServer_watcher : List Stmt :=
  [ .recvDone,
    .withTimeout .Background (5 * Second),
    .deferCancel,
    .Shutdown,
    .ifErrNeNilPrintf "error shutting down the how are you server: %s\n",
    .Println "the how are you server is closed",
    .wgDone ]

/-- The function `newHowAreYouWaitGracefulServer`. -/
def newHowAreYouWaitGracefulServer : List Stmt :=
  [ .NewServeMux,
    .HandleFunc "/" [.writeHeader http.StatusOK, .write "How are you?"],
    .newServer ":8000",
    .go (.watcher .howAreYou),
    .Println "the how are you server is starting",
    .ListenAndServe,
    .ifErrNeServerClosedPrintf "error starting the how are you server: %s\n",
    .Println "the how are you server is closing" ]

/-- Program 3. -/
def program : Program
  | .main => main
  | .server .helloWorld => newHelloWorldWaitGracefulServer
  | .watcher .helloWorld => newHelloWorldWaitGracefulServer_watcher
  | .server .howAreYou => newHowAreYouWaitGracefulServer
  | .watcher .howAreYou => newHowAreYouWaitGracefulServer_watcher

end WaitgroupServer

/-! ## Derived notions used by the statements below -/

/-- The count a function body registers on the wait group: the sum of the
arguments of its `wg.Add` calls. -/
def registeredCount (body : List Stmt) : Int :=
  (body.map fun st => match st with
    | .wgAdd d => d
    | _ => 0).sum

/-- The number of goroutines a function body launches with `go`. -/
def launchedCount (body : List Stmt) : Nat :=
  body.countP fun st => match st with
    | .go _ => true
    | _ => false

/-- The goroutine at index `i` of the pool. -/
def State.goroutine (s : State) (i : Nat) : Option Goroutine := s.pool[i]?

/-- The statement goroutine `g` executes next, if it has not reached the end of its body. -/
def Goroutine.next (p : Program) (g : Goroutine) : Option Stmt := (p g.fn)[g.pc]?

/-- Whether the watcher of task `t` has called `wg.Done`. -/
def watcherDone (s : State) (t : Task) : Bool :=
  s.sh.events.contains (.Done (.watcher t))

/-- Whether main has got past `wg.Wait()`: its program counter is beyond the
position of the `wgWait` statement in its body. -/
def mainPassedWait (p : Program) (s : State) : Bool :=
  match s.pool.head? with
  | some g => g.fn = .main && decide ((p .main).indexOf .wgWait < g.pc)
  | none => false

/-- Whether the mux of a server routes the request to the given pattern. -/
def http.Server.routesTo (srv : http.Server) (r : http.Request) (pattern : String) : Bool :=
  decide ((srv.Handler.route r.path).map Prod.fst = some pattern)

/-- The server a task function of program 2 or 3 has built when it reaches
`server.ListenAndServe()`: its local `server` after the statements before that call. -/
def configuredServer (p : Program) (t : Task) : Option http.Server :=
  let body := p (.server t)
  match runSeq (.server t) (body.take (body.indexOf .ListenAndServe)) []
      (Shared.init, Local.init) with
  | some (_, lo) => lo.server
  | none => none

/-- The servers the three programs configure for a task, program 1 first. -/
def serversOfTask (t : Task) : List (Option http.Server) :=
  [ some (match t with
      | .helloWorld => ConcurrentServer.newHelloWorldServer
      | .howAreYou => ConcurrentServer.newHowAreYouServer),
    configuredServer GracefulServer.program t,
    configuredServer WaitgroupServer.program t ]

/-- A run of program 3 up to the point where the watcher of task A has called
`wg.Done()`: main registers, launches both tasks, receives SIGTERM and cancels;
both tasks start their watchers; the watcher of task A shuts its server down
(Shutdown returns nil) and calls `wg.Done()`. Goroutine 0 is main, 1 and 2 are
the tasks, 3 and 4 their watchers. -/
def traceFirstWatcherDone : List Action :=
  [ .run 0, .run 0, .run 0, .run 0, .run 0, .run 0, .run 0, .signal .SIGTERM,
    .run 0, .run 0, .run 0,
    .run 1, .run 1, .run 1, .run 1,
    .run 2, .run 2, .run 2, .run 2,
    .run 3, .run 3, .run 3, .ret 3 .nil, .run 3, .run 3, .run 3 ]

/-- The run `traceFirstWatcherDone`, after which main passes `wg.Wait()` and returns. -/
def traceMainExitsEarly : List Action :=
  traceFirstWatcherDone ++ [.run 0, .run 0]

/-- The run `traceFirstWatcherDone`, after which the watcher of task B shuts
its server down and calls `wg.Done()` before main has moved. -/
def traceSecondDone : List Action :=
  traceFirstWatcherDone ++ [.run 4, .run 4, .run 4, .ret 4 .nil, .run 4, .run 4, .run 4]

/-- A plain request for the root path. -/
def getRoot : http.Request := { method := "GET", path := "/", headers := [], body := [] }

/-- A call of `server.Shutdown` that has returned. -/
def Event.isShutdownCall : Event → Bool
  | .ShutdownCall _ _ _ => true
  | _ => false

/-- A call of `wg.Done()`. -/
def Event.isDone : Event → Bool
  | .Done _ => true
  | _ => false

/-- A call of `fmt.Printf`: the programs only use it for their error reports. -/
def Event.isPrintf : Event → Bool
  | .Printf _ _ => true
  | _ => false

/-- The format of the report a watcher prints when `Shutdown` fails. -/
def shutdownErrorFormat : Task → String
  | .helloWorld => "error shutting down the hello world server: %s\n"
  | .howAreYou => "error shutting down the how are you server: %s\n"

/-- The format of the report a task prints when `ListenAndServe` ends on its own. -/
def startErrorFormat : Task → String
  | .helloWorld => "error starting the hello world server: %s\n"
  | .howAreYou => "error starting the how are you server: %s\n"

/-- The line a task prints before it returns. -/
def closingLine : Task → String
  | .helloWorld => "the hello world server is closing"
  | .howAreYou => "the how are you server is closing"

/-- The stop path of a task: the body of its watcher after `<-ctx.Done()`. -/
def stopPath (p : Program) (t : Task) : List Stmt :=
  (p (.watcher t)).drop ((p (.watcher t)).indexOf .recvDone + 1)

/-- One execution of the stop path of task `t` in which `Shutdown` returns `r`:
the shared state it leaves. -/
def runStopPath (p : Program) (t : Task) (r : Err) (lo : Local) (sh : Shared) : Option Shared :=
  (runSeq (.watcher t) (stopPath p t) [r] (sh, lo)).map Prod.fst

/-- The watcher of task `t` up to and including its call of `server.Shutdown`. -/
def untilShutdown (p : Program) (t : Task) : List Stmt :=
  (p (.watcher t)).take ((p (.watcher t)).indexOf .Shutdown + 1)

/-- The main path of a task from its call of `server.ListenAndServe` to its end. -/
def fromListen (p : Program) (t : Task) : List Stmt :=
  (p (.server t)).drop ((p (.server t)).indexOf .ListenAndServe)

/-- Locals of a goroutine that sees the server program 3 configures for task A. -/
def localsWithServer : Local :=
  { Local.init with server := configuredServer WaitgroupServer.program .helloWorld }

/-- A running process whose context is cancelled and whose wait-group counter is `n`. -/
def cancelledWith (n : Int) : Shared :=
  { Shared.init with cancelled := true, wg := n }

/-- Text written to standard output. -/
def Event.isOutput : Event → Bool
  | .Println _ => true
  | .Print _ => true
  | .Printf _ _ => true
  | _ => false

/-- The statements that at most print and assign a local variable. -/
def Stmt.onlyPrints : Stmt → Bool
  | .Println _ => true
  | .Print _ => true
  | .ListenAndServe => true
  | .ifErrNeServerClosedPrintf _ => true
  | .ifErrNeNilPrintf _ => true
  | _ => false

/-- The goroutine after it has executed one statement. -/
def Goroutine.advance (g : Goroutine) (lo1 : Local) : Goroutine :=
  { g with pc := g.pc + 1, lo := lo1 }

/-- The goroutine after it has returned. -/
def Goroutine.finish (g : Goroutine) : Goroutine :=
  { g with returned := true, lo := { g.lo with deferred := 0 } }

/-- The scheduler choices that let goroutine `i` run the statements `code` on
its own, its library calls returning the values `rets`. -/
def actionsOf (i : Nat) : List Stmt → List Err → List Action
  | [], _ => []
  | st :: rest, rets =>
      if st.isCall then
        match rets with
        | [] => []
        | e :: rets1 => .ret i e :: actionsOf i rest rets1
      else .run i :: actionsOf i rest rets

/-- The statements of a task function before it starts its watcher. -/
def beforeWatcher (p : Program) (t : Task) : List Stmt :=
  (p (.server t)).take ((p (.server t)).indexOf (.go (.watcher t)))

/-- The run in which goroutine `i`, a task function that has just been
started, runs up to and including the `go` statement of its watcher, and the
watcher, which becomes goroutine `n`, runs up to its call of
`server.Shutdown`, which returns `r`. No other goroutine moves. -/
def startThenStop (p : Program) (t : Task) (i n : Nat) (r : Err) : List Action :=
  actionsOf i (beforeWatcher p t) [] ++ [.run i] ++ actionsOf n (untilShutdown p t) [r]

/-- A run of program 3 in which main receives SIGTERM and cancels the context
before either task function has executed a statement. -/
def traceCancelBeforeStart : List Action :=
  [ .run 0, .run 0, .run 0, .run 0, .run 0, .run 0, .run 0, .signal .SIGTERM,
    .run 0, .run 0, .run 0 ]

/-- The state of program 3 after `traceCancelBeforeStart`. -/
def stateCancelledBeforeStart : State :=
  (runTrace WaitgroupServer.program State.init traceCancelBeforeStart).getD State.init

/-- The state of program 3 in which main has launched both tasks and task A
has reached its call of `server.ListenAndServe`. -/
def stateAtListen : State :=
  (runTrace WaitgroupServer.program State.init
    [.run 0, .run 0, .run 0, .run 0, .run 1, .run 1, .run 1, .run 1, .run 1]).getD State.init

/-- The goroutine of task A in `stateAtListen`. -/
def goroutineAtListen : Goroutine :=
  (stateAtListen.pool[1]?).getD (spawn Local.init .main)

/-- A `go` statement. -/
def Stmt.isGo : Stmt → Bool
  | .go _ => true
  | _ => false

/-- The goroutine a statement starts, if it is a `go` statement. -/
def Stmt.spawned : Stmt → Option Fn
  | .go f => some f
  | _ => none

/-- The two calls of a watcher that are counted per task. -/
inductive Mark where
  | done
  | shutdown
deriving DecidableEq, Repr

/-- The statement that makes the call. -/
def Mark.stmt : Mark → Stmt
  | .done => .wgDone
  | .shutdown => .Shutdown

/-- Whether an event is that call, made for task `t`. -/
def Mark.counts (m : Mark) (t : Task) : Event → Bool
  | .Done f => m = .done && f.task = some t
  | .ShutdownCall t1 _ _ => m = .shutdown && t1 = t
  | _ => false

/-- The number of such calls made so far for task `t`. -/
def markCalls (m : Mark) (sh : Shared) (t : Task) : Nat := sh.events.countP (m.counts t)

/-- How many such calls for task `t` are still to come from a goroutine running
`f` at program counter `pc`, from itself or from the goroutines it has yet to
start: one as long as it has not passed the statement that leads to the call,
none afterwards. -/
def pendingAt (p : Program) (m : Mark) (t : Task) (f : Fn) (pc : Nat) : Nat :=
  match f with
  | .main => if pc ≤ (p .main).indexOf (.go (.server t)) then 1 else 0
  | .server t1 => if t1 = t ∧ pc ≤ (p (.server t)).indexOf (.go (.watcher t)) then 1 else 0
  | .watcher t1 => if t1 = t ∧ pc ≤ (p (.watcher t)).indexOf m.stmt then 1 else 0

/-- The pending calls of a goroutine. -/
def pending (p : Program) (m : Mark) (t : Task) (g : Goroutine) : Nat :=
  pendingAt p m t g.fn g.pc

/-- The calls made plus the calls still to come. -/
def callBudget (p : Program) (m : Mark) (s : State) (t : Task) : Nat :=
  markCalls m s.sh t + (s.pool.map (pending p m t)).sum

/-! ## Theorems -/

/-! ### General facts about the semantics -/

/-- A statement only executes while the process is running. -/
theorem execStmt_running {f sh lo st input r} (h : execStmt f sh lo st input = some r) :
    sh.status = .running := by
  unfold execStmt at h
  by_contra hc
  simp [hc] at h

/-- Only a `go` statement starts a goroutine. -/
theorem execStmt_spawn {f sh lo st input sh1 lo1 g}
    (h : execStmt f sh lo st input = some (sh1, lo1, some g)) : st = .go g := by
  have hr := execStmt_running h
  cases st <;> cases input <;> simp [execStmt, hr] at h <;> (try split at h) <;> simp_all

/-- A statement takes a returned value exactly when it is a library call. -/
theorem execStmt_input {f sh lo st input r} (h : execStmt f sh lo st input = some r) :
    input.isSome = st.isCall := by
  have hr := execStmt_running h
  cases st <;> cases input <;> simp [execStmt, hr, Stmt.isCall] at h ⊢

/-- Only `wg.Add` and `wg.Done` change the wait-group counter. -/
theorem execStmt_wg {f sh lo st input sh1 lo1 sp}
    (h : execStmt f sh lo st input = some (sh1, lo1, sp)) (hwg : sh1.wg ≠ sh.wg) :
    (∃ d, st = .wgAdd d ∧ sh1.wg = sh.wg + d) ∨ (st = .wgDone ∧ sh1.wg = sh.wg - 1) := by
  have hr := execStmt_running h
  cases st <;> cases input <;> simp [execStmt, hr] at h <;> (try split at h) <;>
    (try simp at h) <;> (try (obtain ⟨rfl, rfl, rfl⟩ := h)) <;>
    simp_all [Shared.emit, Shared.wgAdd]
  omega

/-- No statement resets the cancellation flag, and only `cancel()` sets it. -/
theorem execStmt_cancelled {f sh lo st input sh1 lo1 sp}
    (h : execStmt f sh lo st input = some (sh1, lo1, sp)) :
    (sh.cancelled = true → sh1.cancelled = true) ∧
    (sh1.cancelled ≠ sh.cancelled → st = .cancel) := by
  have hr := execStmt_running h
  cases st <;> cases input <;> simp [execStmt, hr] at h <;> (try split at h) <;>
    (try simp at h) <;> (try (obtain ⟨rfl, rfl, rfl⟩ := h)) <;>
    simp_all [Shared.emit, Shared.wgAdd]

/-- A statement that only prints leaves the shared state as it is, apart from
the output it appends, and starts no goroutine. -/
theorem execStmt_onlyPrints {f sh lo st input sh1 lo1 sp}
    (h : execStmt f sh lo st input = some (sh1, lo1, sp)) (hq : st.onlyPrints = true) :
    sh1.status = sh.status ∧ sh1.wg = sh.wg ∧ sh1.cancelled = sh.cancelled ∧
    sh1.sigCap = sh.sigCap ∧ sh1.notified = sh.notified ∧ sh1.signals = sh.signals ∧
    sh1.shutdown = sh.shutdown ∧ sp = none ∧
    ∃ new, sh1.events = sh.events ++ new ∧ ∀ ev ∈ new, ev.isOutput = true := by
  have hr := execStmt_running h
  cases st <;> cases input <;> simp [Stmt.onlyPrints] at hq <;>
    simp [execStmt, hr] at h <;> (try split at h) <;>
    (try simp at h) <;> (try (obtain ⟨rfl, rfl, rfl⟩ := h)) <;>
    simp_all [Shared.emit, Event.isOutput]

/-- What a move of goroutine `i` is made of: a statement of its body, or its return. -/
theorem stepGoroutine_inv {p : Program} {s s1 : State} {i : Nat} {input : Option Err}
    (h : stepGoroutine p s i input = some s1) :
    ∃ g, s.pool[i]? = some g ∧
      ((∃ st sh1 lo1 sp, (p g.fn)[g.pc]? = some st ∧
          execStmt g.fn s.sh g.lo st input = some (sh1, lo1, sp) ∧ s1.sh = sh1 ∧
          s1.pool = (s.pool.set i (g.advance lo1)) ++ (sp.map (spawn lo1)).toList) ∨
       ((p g.fn)[g.pc]? = none ∧ s.sh.status = .running ∧ g.returned = false ∧ input = none ∧
          s1.sh = (if g.fn = .main then { s.sh with status := .exited } else s.sh) ∧
          s1.pool = s.pool.set i g.finish)) := by
  unfold stepGoroutine at h
  cases hg : s.pool[i]? with
  | none => simp [hg] at h
  | some g =>
    refine ⟨g, rfl, ?_⟩
    simp only [hg] at h
    cases hst : (p g.fn)[g.pc]? with
    | some st =>
      left
      simp only [hst] at h
      cases hex : execStmt g.fn s.sh g.lo st input with
      | none => simp [hex] at h
      | some r =>
        obtain ⟨sh1, lo1, sp⟩ := r
        simp only [hex, Option.some.injEq] at h
        subst h
        refine ⟨st, sh1, lo1, sp, rfl, hex, rfl, ?_⟩
        cases sp <;> simp [Goroutine.advance]
    | none =>
      right
      simp only [hst] at h
      split at h
      · cases h
      · rename_i hc
        simp only [not_or, not_not, Bool.not_eq_true] at hc
        cases h
        refine ⟨rfl, hc.1, ?_, hc.2.2, rfl, rfl⟩
        simpa using hc.2.1

/-- A move of goroutine `i` that executes a statement. -/
theorem stepGoroutine_exec {p : Program} {s : State} {i : Nat} {input : Option Err}
    {g : Goroutine} {st : Stmt} {sh1 : Shared} {lo1 : Local} {sp : Option Fn}
    (hg : s.pool[i]? = some g) (hst : (p g.fn)[g.pc]? = some st)
    (hex : execStmt g.fn s.sh g.lo st input = some (sh1, lo1, sp)) :
    stepGoroutine p s i input =
      some ⟨sh1, (s.pool.set i (g.advance lo1)) ++ (sp.map (spawn lo1)).toList⟩ := by
  unfold stepGoroutine
  simp only [hg, hst, hex]
  cases sp <;> simp [Goroutine.advance]

/-- A move that changes the wait-group counter executes `wg.Add` or `wg.Done`. -/
theorem stepGoroutine_wg {p : Program} {s s1 : State} {i : Nat} {input : Option Err}
    (h : stepGoroutine p s i input = some s1) (hwg : s1.sh.wg ≠ s.sh.wg) :
    ∃ g, s.pool[i]? = some g ∧ input = none ∧
      ((∃ d, (p g.fn)[g.pc]? = some (.wgAdd d) ∧ s1.sh.wg = s.sh.wg + d) ∨
       ((p g.fn)[g.pc]? = some .wgDone ∧ s1.sh.wg = s.sh.wg - 1)) := by
  obtain ⟨g, hg, hcase⟩ := stepGoroutine_inv h
  refine ⟨g, hg, ?_⟩
  rcases hcase with ⟨st, sh1, lo1, sp, hst, hex, hsh, -⟩ | ⟨-, -, -, -, hsh, -⟩
  · rw [hsh] at hwg
    have hin := execStmt_input hex
    rcases execStmt_wg hex hwg with ⟨d, rfl, hd⟩ | ⟨rfl, hd⟩
    · refine ⟨?_, Or.inl ⟨d, hst, hsh ▸ hd⟩⟩
      cases input <;> simp [Stmt.isCall] at hin ⊢
    · refine ⟨?_, Or.inr ⟨hst, hsh ▸ hd⟩⟩
      cases input <;> simp [Stmt.isCall] at hin ⊢
  · exfalso; apply hwg; rw [hsh]; split <;> rfl

/-- A run continues from the state its first part leads to. -/
theorem runTrace_append (p : Program) (tr1 tr2 : List Action) (s s1 : State)
    (h : runTrace p s tr1 = some s1) :
    runTrace p s (tr1 ++ tr2) = runTrace p s1 tr2 := by
  induction tr1 generalizing s with
  | nil => simp [runTrace] at h; subst h; rfl
  | cons a tr ih =>
    simp only [runTrace, List.cons_append] at h ⊢
    cases hs : step p s a with
    | none => simp [hs] at h
    | some s2 =>
      simp only [hs, Option.bind_some] at h ⊢
      exact ih s2 h

/-- Writing back the element that is already there changes nothing. -/
theorem set_of_getElem? {α : Type} :
    ∀ (l : List α) (i : Nat) (a : α), l[i]? = some a → l.set i a = l
  | [], _, _, h => by simp at h
  | x :: l, 0, a, h => by simp at h; simp [h]
  | x :: l, i + 1, a, h => by
    simp at h
    simp [set_of_getElem? l i a h]

/-- A sequential run of straight-line code without `go` is a run of the
process in which only goroutine `i` moves. -/
theorem runSeq_lift (p : Program) (i : Nat) :
    ∀ (code : List Stmt) (rets : List Err) (s : State) (g : Goroutine) (rest : List Stmt)
      (sh1 : Shared) (lo1 : Local),
      s.pool[i]? = some g → (p g.fn).drop g.pc = code ++ rest →
      (∀ st ∈ code, ∀ h, st ≠ .go h) →
      runSeq g.fn code rets (s.sh, g.lo) = some (sh1, lo1) →
      runTrace p s (actionsOf i code rets) =
        some ⟨sh1, s.pool.set i { g with pc := g.pc + code.length, lo := lo1 }⟩ := by
  intro code
  induction code with
  | nil =>
    intro rets s g rest sh1 lo1 hg _ _ hrun
    simp only [runSeq, Option.some.injEq, Prod.mk.injEq] at hrun
    obtain ⟨rfl, rfl⟩ := hrun
    simp only [actionsOf, runTrace, List.length_nil, Nat.add_zero]
    have : s.pool.set i g = s.pool := set_of_getElem? _ _ _ hg
    cases s; simp_all
  | cons st code ih =>
    intro rets s g rest sh1 lo1 hg hdrop hgo hrun
    have hst : (p g.fn)[g.pc]? = some st := by
      have := List.getElem?_drop (p g.fn) g.pc 0
      rw [hdrop] at this
      simpa using this.symm
    have hdrop1 : (p g.fn).drop (g.pc + 1) = code ++ rest := by
      have := congrArg (List.drop 1) hdrop
      simpa [List.drop_drop, Nat.add_comm] using this
    have hnogo : ∀ (sh2 : Shared) (lo2 : Local) (sp : Option Fn) (input : Option Err),
        execStmt g.fn s.sh g.lo st input = some (sh2, lo2, sp) → sp = none := by
      intro sh2 lo2 sp input hex
      cases sp with
      | none => rfl
      | some h => exact absurd (execStmt_spawn hex) (hgo st (List.mem_cons_self _ _) h)
    have hgi : ∀ (sh2 : Shared) (lo2 : Local),
        (⟨sh2, s.pool.set i (g.advance lo2)⟩ : State).pool[i]? = some (g.advance lo2) := by
      intro sh2 lo2
      have hlt : i < s.pool.length := (List.getElem?_eq_some.mp hg).1
      simp [hlt]
    simp only [runSeq] at hrun
    by_cases hcall : st.isCall = true
    · simp only [hcall, if_true] at hrun
      cases rets with
      | nil => simp at hrun
      | cons e rets1 =>
        simp only at hrun
        cases hex : execStmt g.fn s.sh g.lo st (some e) with
        | none => simp [hex] at hrun
        | some r =>
          obtain ⟨sh2, lo2, sp⟩ := r
          obtain rfl := hnogo sh2 lo2 sp _ hex
          simp only [hex] at hrun
          have hstep := stepGoroutine_exec hg hst hex
          simp only [Option.map_none', Option.toList_none, List.append_nil] at hstep
          have := ih rets1 ⟨sh2, s.pool.set i (g.advance lo2)⟩ (g.advance lo2) rest sh1 lo1
            (hgi sh2 lo2) hdrop1 (fun st1 h1 => hgo st1 (List.mem_cons_of_mem _ h1)) hrun
          simp only [actionsOf, hcall, if_true, runTrace, step, hstep, Option.bind_some]
          refine Eq.trans this ?_
          simp [Goroutine.advance, Nat.add_assoc, Nat.add_comm 1]
    · simp only [hcall] at hrun
      cases hex : execStmt g.fn s.sh g.lo st none with
      | none => simp [hex] at hrun
      | some r =>
        obtain ⟨sh2, lo2, sp⟩ := r
        obtain rfl := hnogo sh2 lo2 sp _ hex
        simp only [hex] at hrun
        have hstep := stepGoroutine_exec hg hst hex
        simp only [Option.map_none', Option.toList_none, List.append_nil] at hstep
        have := ih rets ⟨sh2, s.pool.set i (g.advance lo2)⟩ (g.advance lo2) rest sh1 lo1
          (hgi sh2 lo2) hdrop1 (fun st1 h1 => hgo st1 (List.mem_cons_of_mem _ h1)) hrun
        simp only [actionsOf, hcall, runTrace, step, hstep, Option.bind_some]
        refine Eq.trans this ?_
        simp [Goroutine.advance, Nat.add_assoc, Nat.add_comm 1]

/-! ### Facts about the text of programs 2 and 3 -/

/-- In a body without repeated statements a statement is found at its own position. -/
theorem pc_eq_indexOf {l : List Stmt} {n : Nat} {a : Stmt} (hnd : l.Nodup)
    (h : l[n]? = some a) : n = l.indexOf a := by
  obtain ⟨hlt, rfl⟩ := List.getElem?_eq_some.mp h
  exact (List.indexOf_getElem hnd n hlt).symm

/-- The statement at a position from `k` on belongs to the body from `k` on. -/
theorem mem_drop_of_getElem? {l : List Stmt} {k n : Nat} {a : Stmt} (hk : k ≤ n)
    (h : l[n]? = some a) : a ∈ l.drop k := by
  apply List.getElem?_mem (n := n - k)
  rw [List.getElem?_drop]
  have : k + (n - k) = n := by omega
  rw [this]; exact h

/-- No function body of programs 2 and 3 repeats a statement. -/
theorem bodies_nodup (p : Program)
    (hp : p = GracefulServer.program ∨ p = WaitgroupServer.program) (f : Fn) :
    (p f).Nodup := by
  rcases hp with rfl | rfl <;> rcases f with _ | t | t <;> (try cases t) <;> decide

/-- The only `wg.Add` is in main, before any `go` statement. -/
theorem wgAdd_only_in_main_before_launch (p : Program)
    (hp : p = GracefulServer.program ∨ p = WaitgroupServer.program) (f : Fn) (pc : Nat)
    (d : Int) (h : (p f)[pc]? = some (.wgAdd d)) :
    f = .main ∧ launchedCount ((p .main).take pc) = 0 := by
  have hpc := pc_eq_indexOf (bodies_nodup p hp f) h
  have hmem := List.getElem?_mem h
  subst hpc
  rcases hp with rfl | rfl <;> rcases f with _ | t | t <;> (try cases t) <;>
    simp [GracefulServer.program, WaitgroupServer.program, GracefulServer.main,
      WaitgroupServer.main, GracefulServer.newHelloWorldGracefulServer,
      GracefulServer.newHowAreYouGracefulServer,
      GracefulServer.newHelloWorldGracefulServer_watcher,
      GracefulServer.newHowAreYouGracefulServer_watcher,
      WaitgroupServer.newHelloWorldWaitGracefulServer,
      WaitgroupServer.newHowAreYouWaitGracefulServer,
      WaitgroupServer.newHelloWorldWaitGracefulServer_watcher,
      WaitgroupServer.newHowAreYouWaitGracefulServer_watcher] at hmem
  subst hmem
  decide

/-- The only `wg.Done` calls are in the watchers, after their call of `Shutdown`. -/
theorem wgDone_only_in_watcher_after_shutdown (p : Program)
    (hp : p = GracefulServer.program ∨ p = WaitgroupServer.program) (f : Fn) (pc : Nat)
    (h : (p f)[pc]? = some .wgDone) :
    ∃ t, f = .watcher t ∧ Stmt.Shutdown ∈ (p (.watcher t)).take pc := by
  have hpc := pc_eq_indexOf (bodies_nodup p hp f) h
  have hmem := List.getElem?_mem h
  subst hpc
  rcases hp with rfl | rfl <;> rcases f with _ | t | t <;> (try cases t) <;>
    first
    | exact absurd hmem (by decide)
    | exact ⟨_, rfl, by decide⟩

/-- From its call of `ListenAndServe` on, a task function only prints. -/
theorem fromListen_onlyPrints (p : Program)
    (hp : p = GracefulServer.program ∨ p = WaitgroupServer.program) (t : Task) :
    ∀ st ∈ (p (.server t)).drop ((p (.server t)).indexOf .ListenAndServe),
      st.onlyPrints = true := by
  rcases hp with rfl | rfl <;> cases t <;> decide

/-! ### Each task is shut down and counted at most once in program 3 -/

/-- A statement starts the goroutine its text says, and no other. -/
theorem execStmt_spawned {f sh lo st input sh1 lo1 sp}
    (h : execStmt f sh lo st input = some (sh1, lo1, sp)) : sp = st.spawned := by
  have hr := execStmt_running h
  cases st <;> cases input <;> simp [execStmt, hr] at h <;> (try split at h) <;>
    simp_all [Stmt.spawned]

/-- A statement adds one counted call for task `t` exactly when it is the
statement of that call, executed by a goroutine of task `t`. -/
theorem execStmt_markCalls {f sh lo st input sh1 lo1 sp} (m : Mark) (t : Task)
    (h : execStmt f sh lo st input = some (sh1, lo1, sp)) :
    markCalls m sh1 t =
      markCalls m sh t + (if st = m.stmt ∧ f.task = some t then 1 else 0) := by
  have hr := execStmt_running h
  cases st <;> cases input <;> simp [execStmt, hr] at h <;> (try split at h) <;>
    (try simp at h) <;> (try (obtain ⟨rfl, rfl, rfl⟩ := h)) <;> cases m <;>
    simp_all [Shared.emit, Shared.wgAdd, markCalls, List.countP_append, Mark.counts, Mark.stmt]
  · rename_i t1 _ _ _
    by_cases ht : t1 = t <;> simp [List.countP_cons, Mark.counts, ht]
  · by_cases hf : f.task = some t <;> simp [List.countP_cons, Mark.counts, hf]


/-- Replacing one element of a list changes the sum of a map by the difference
of the two values. -/
theorem sum_map_set {α : Type} (f : α → Nat) :
    ∀ (l : List α) (i : Nat) (a b : α), l[i]? = some a →
      ((l.set i b).map f).sum + f a = (l.map f).sum + f b
  | [], _, _, _, h => by simp at h
  | x :: l, 0, a, b, h => by
    simp at h; subst h; simp; omega
  | x :: l, i + 1, a, b, h => by
    simp only [List.getElem?_cons_succ] at h
    have := sum_map_set f l i a b h
    simp only [List.set_cons_succ, List.map_cons, List.sum_cons]
    omega

/-- In program 3 every statement keeps the budget of its goroutine: a call made,
the calls still pending afterwards and those handed to a started goroutine add
up to the calls pending before. -/
theorem call_balance (m : Mark) (t : Task) (f : Fn) (pc : Nat) (st : Stmt)
    (h : (WaitgroupServer.program f)[pc]? = some st) :
    (if st = m.stmt ∧ f.task = some t then 1 else 0) +
      pendingAt WaitgroupServer.program m t f (pc + 1) +
      (match st.spawned with
        | some h => pendingAt WaitgroupServer.program m t h 0
        | none => 0) = pendingAt WaitgroupServer.program m t f pc := by
  have hlt := (List.getElem?_eq_some.mp h).1
  rcases f with _ | t1 | t1 <;> (try cases t1) <;> cases t <;> cases m <;>
    simp only [WaitgroupServer.program, WaitgroupServer.main,
      WaitgroupServer.newHelloWorldWaitGracefulServer,
      WaitgroupServer.newHowAreYouWaitGracefulServer,
      WaitgroupServer.newHelloWorldWaitGracefulServer_watcher,
      WaitgroupServer.newHowAreYouWaitGracefulServer_watcher, List.length_cons,
      List.length_nil] at hlt <;>
    interval_cases pc <;>
    simp [WaitgroupServer.program, WaitgroupServer.main,
      WaitgroupServer.newHelloWorldWaitGracefulServer,
      WaitgroupServer.newHowAreYouWaitGracefulServer,
      WaitgroupServer.newHelloWorldWaitGracefulServer_watcher,
      WaitgroupServer.newHowAreYouWaitGracefulServer_watcher] at h <;>
    subst h <;> decide

/-- A move of a goroutine of program 3 keeps the call budget. -/
theorem stepGoroutine_callBudget (m : Mark) (t : Task) {s s1 : State} {i : Nat}
    {input : Option Err} (h : stepGoroutine WaitgroupServer.program s i input = some s1) :
    callBudget WaitgroupServer.program m s1 t = callBudget WaitgroupServer.program m s t := by
  obtain ⟨g, hg, hcase⟩ := stepGoroutine_inv h
  rcases hcase with ⟨st, sh1, lo1, sp, hst, hex, hsh, hpool⟩ | ⟨-, -, -, -, hsh, hpool⟩
  · have hsp := execStmt_spawned hex
    have hd := execStmt_markCalls m t hex
    have hb := call_balance m t g.fn g.pc st hst
    have hsum := sum_map_set (pending WaitgroupServer.program m t) s.pool i g
      (g.advance lo1) hg
    have hadv : pending WaitgroupServer.program m t (g.advance lo1)
        = pendingAt WaitgroupServer.program m t g.fn (g.pc + 1) := rfl
    have hcur : pending WaitgroupServer.program m t g
        = pendingAt WaitgroupServer.program m t g.fn g.pc := rfl
    have hnew : (((sp.map (spawn lo1)).toList).map (pending WaitgroupServer.program m t)).sum
        = (match st.spawned with
            | some h => pendingAt WaitgroupServer.program m t h 0
            | none => 0) := by
      rw [hsp]
      cases st.spawned <;> simp [pending, spawn]
    unfold callBudget
    rw [hpool, List.map_append, List.sum_append, hnew, hsh, hd]
    omega
  · have hsum := sum_map_set (pending WaitgroupServer.program m t) s.pool i g g.finish hg
    have hfin : pending WaitgroupServer.program m t g.finish
        = pending WaitgroupServer.program m t g := rfl
    have hev : markCalls m s1.sh t = markCalls m s.sh t := by
      rw [hsh]; unfold markCalls; split <;> rfl
    unfold callBudget
    rw [hpool, hev]
    omega

/-- A step of program 3 keeps the call budget. -/
theorem step_callBudget (m : Mark) (t : Task) {s s1 : State} {a : Action}
    (h : step WaitgroupServer.program s a = some s1) :
    callBudget WaitgroupServer.program m s1 t = callBudget WaitgroupServer.program m s t := by
  cases a with
  | run i => exact stepGoroutine_callBudget m t h
  | ret i e => exact stepGoroutine_callBudget m t h
  | signal sig =>
    simp only [step, deliver] at h
    split at h
    · simp at h
    · split at h
      · split at h <;> simp at h <;> subst h <;> rfl
      · simp at h; subst h; rfl

/-- A run of program 3 keeps the call budget. -/
theorem runTrace_callBudget (m : Mark) (t : Task) :
    ∀ (tr : List Action) (s s1 : State), runTrace WaitgroupServer.program s tr = some s1 →
      callBudget WaitgroupServer.program m s1 t = callBudget WaitgroupServer.program m s t := by
  intro tr
  induction tr with
  | nil => intro s s1 h; simp [runTrace] at h; subst h; rfl
  | cons a tr ih =>
    intro s s1 h
    simp only [runTrace] at h
    cases hs : step WaitgroupServer.program s a with
    | none => simp [hs] at h
    | some s2 =>
      simp only [hs, Option.bind_some] at h
      rw [ih s2 s1 h, step_callBudget m t hs]

/-- In every reachable state of program 3 each task has had at most one call
of `server.Shutdown` and at most one call of `wg.Done()`. -/
theorem reachable_markCalls_le_one (m : Mark) (t : Task) (s : State)
    (h : Reachable WaitgroupServer.program s) : markCalls m s.sh t ≤ 1 := by
  obtain ⟨tr, htr⟩ := h
  have hb := runTrace_callBudget m t tr _ _ htr
  have h0 : callBudget WaitgroupServer.program m State.init t = 1 := by
    cases t <;> cases m <;> decide
  rw [h0] at hb
  unfold callBudget at hb
  omega

/-! ### Runs of a watcher and of a task function -/

/-- Once the context is cancelled, a watcher of programs 2 and 3 running alone
reaches its call of `server.Shutdown` and passes it a context with a 5 second
timeout derived from the background context. -/
theorem watcher_reaches_shutdown (p : Program)
    (hp : p = GracefulServer.program ∨ p = WaitgroupServer.program)
    (t : Task) (r : Err) (sh : Shared) (lo : Local)
    (hrun : sh.status = .running) (hc : sh.cancelled = true) (hsrv : lo.server.isSome = true) :
    ∃ sh1 lo1,
      runSeq (.watcher t) (untilShutdown p t) [r] (sh, lo) = some (sh1, lo1) ∧
      sh1.events.getLast? =
        some (.ShutdownCall t (some (.WithTimeout .Background (5 * Second))) r) ∧
      sh1.events.countP Event.isShutdownCall = sh.events.countP Event.isShutdownCall + 1 ∧
      sh1.cancelled = true ∧ t ∈ sh1.shutdown := by
  obtain ⟨srv, hsrv⟩ := Option.isSome_iff_exists.mp hsrv
  rcases hp with rfl | rfl <;> cases t <;>
    simp [untilShutdown, runSeq, execStmt, GracefulServer.program, WaitgroupServer.program,
      GracefulServer.newHelloWorldGracefulServer_watcher,
      GracefulServer.newHowAreYouGracefulServer_watcher,
      WaitgroupServer.newHelloWorldWaitGracefulServer_watcher,
      WaitgroupServer.newHowAreYouWaitGracefulServer_watcher, Stmt.isCall, hrun, hc, hsrv,
      sharedCtx, Ctx.isDone, Fn.task, Shared.emit, Event.isShutdownCall, List.indexOf,
      List.findIdx, List.findIdx.go]

/-- A task function running alone reaches the `go` statement of its watcher with
its server configured, without touching the shared state. -/
theorem task_reaches_go (p : Program)
    (hp : p = GracefulServer.program ∨ p = WaitgroupServer.program)
    (t : Task) (sh : Shared) (lo : Local) (hrun : sh.status = .running) :
    ∃ lo1, runSeq (.server t) (beforeWatcher p t) [] (sh, lo) = some (sh, lo1) ∧
      lo1.server.isSome = true := by
  rcases hp with rfl | rfl <;> cases t <;>
    simp [beforeWatcher, runSeq, execStmt, GracefulServer.program, WaitgroupServer.program,
      GracefulServer.newHelloWorldGracefulServer, GracefulServer.newHowAreYouGracefulServer,
      WaitgroupServer.newHelloWorldWaitGracefulServer,
      WaitgroupServer.newHowAreYouWaitGracefulServer, Stmt.isCall, hrun, List.indexOf,
      List.findIdx, List.findIdx.go]

/-- The scheduler choices of `actionsOf i` only move goroutine `i`. -/
theorem actionsOf_mem (i : Nat) : ∀ (code : List Stmt) (rets : List Err) (a : Action),
    a ∈ actionsOf i code rets → a = .run i ∨ ∃ e ∈ rets, a = .ret i e := by
  intro code
  induction code with
  | nil => intro rets a h; simp [actionsOf] at h
  | cons st code ih =>
    intro rets a h
    simp only [actionsOf] at h
    split at h
    · cases rets with
      | nil => simp at h
      | cons e rets1 =>
        simp only [List.mem_cons] at h
        rcases h with rfl | h
        · exact Or.inr ⟨e, List.mem_cons_self _ _, rfl⟩
        · rcases ih rets1 a h with h1 | ⟨e1, he1, h1⟩
          · exact Or.inl h1
          · exact Or.inr ⟨e1, List.mem_cons_of_mem _ he1, h1⟩
    · simp only [List.mem_cons] at h
      rcases h with rfl | h
      · exact Or.inl rfl
      · exact ih rets a h

/-- Code that contains no `go` statement. -/
theorem no_go_of_isGo {code : List Stmt} (h : ∀ st ∈ code, st.isGo = false) :
    ∀ st ∈ code, ∀ f, st ≠ .go f := by
  intro st hst f hf
  have := h st hst
  rw [hf] at this
  simp [Stmt.isGo] at this

/-- A task function of programs 2 and 3 that is started when the context is
already cancelled: it and its watcher, moving alone, get to the call of
`server.Shutdown`. -/
theorem start_after_cancel (p : Program)
    (hp : p = GracefulServer.program ∨ p = WaitgroupServer.program)
    (s : State) (i : Nat) (t : Task) (lo0 : Local) (r : Err)
    (hrun : s.sh.status = .running) (hc : s.sh.cancelled = true)
    (hg : s.pool[i]? = some (spawn lo0 (.server t))) :
    ∃ s1, runTrace p s (startThenStop p t i s.pool.length r) = some s1 ∧
      s1.sh.events.getLast? =
        some (.ShutdownCall t (some (.WithTimeout .Background (5 * Second))) r) ∧
      t ∈ s1.sh.shutdown := by
  have hlt : i < s.pool.length := (List.getElem?_eq_some.mp hg).1
  -- the task function up to the `go` statement of its watcher
  obtain ⟨lo3, hseq1, hsrv3⟩ := task_reaches_go p hp t s.sh (spawn lo0 (.server t)).lo hrun
  have hnogo1 : ∀ st ∈ beforeWatcher p t, st.isGo = false := by
    rcases hp with rfl | rfl <;> cases t <;> decide
  have hlen : (beforeWatcher p t).length = 3 := by
    rcases hp with rfl | rfl <;> cases t <;> decide
  have hst : (p (.server t))[3]? = some (.go (.watcher t)) := by
    rcases hp with rfl | rfl <;> cases t <;> decide
  let gA : Goroutine := { fn := .server t, pc := 3, lo := lo3, returned := false }
  let poolB : List Goroutine := (s.pool.set i gA).set i (gA.advance lo3) ++ [spawn lo3 (.watcher t)]
  have L1 : runTrace p s (actionsOf i (beforeWatcher p t) []) = some ⟨s.sh, s.pool.set i gA⟩ := by
    have := runSeq_lift p i (beforeWatcher p t) [] s (spawn lo0 (.server t))
      ((p (.server t)).drop ((p (.server t)).indexOf (.go (.watcher t)))) s.sh lo3 hg
      (by simp [beforeWatcher, spawn]) (no_go_of_isGo hnogo1) hseq1
    simpa [spawn, hlen, gA] using this
  -- the `go` statement
  have S2 : stepGoroutine p ⟨s.sh, s.pool.set i gA⟩ i none = some ⟨s.sh, poolB⟩ :=
    @stepGoroutine_exec p ⟨s.sh, s.pool.set i gA⟩ i none gA (.go (.watcher t)) s.sh lo3
      (some (.watcher t)) (by simp [hlt]) hst (by simp [execStmt, hrun])
  have T12 : runTrace p s (actionsOf i (beforeWatcher p t) [] ++ [.run i]) =
      some ⟨s.sh, poolB⟩ := by
    rw [runTrace_append p _ _ s _ L1]
    simp [runTrace, step, S2]
  -- the watcher up to its call of Shutdown
  obtain ⟨sh1, lo1, hseq2, hlast, -, -, hmem⟩ :=
    watcher_reaches_shutdown p hp t r s.sh (spawn lo3 (.watcher t)).lo hrun hc
      (by simpa [spawn] using hsrv3)
  have hnogo2 : ∀ st ∈ untilShutdown p t, st.isGo = false := by
    rcases hp with rfl | rfl <;> cases t <;> decide
  have L3 := runSeq_lift p s.pool.length (untilShutdown p t) [r] ⟨s.sh, poolB⟩
    (spawn lo3 (.watcher t))
    ((p (.watcher t)).drop ((p (.watcher t)).indexOf .Shutdown + 1)) sh1 lo1
    (by simp [poolB]) (by simp [untilShutdown, spawn]) (no_go_of_isGo hnogo2) hseq2
  have T := (runTrace_append p _ (actionsOf s.pool.length (untilShutdown p t) [r]) s _
    T12).trans L3
  exact ⟨_, T, hlast, hmem⟩

/-! ### The claims -/


/-- A server whose mux has the single pattern `p` answers a request routed to
that pattern with the handler registered for it. -/
theorem respond_single_pattern (addr p : String) (h : http.HandlerFunc) (r : http.Request)
    (hr : (http.Server.mk addr ⟨[(p, h)]⟩).routesTo r p = true) :
    (http.Server.mk addr ⟨[(p, h)]⟩).respond r = h.ServeHTTP http.ResponseWriter.fresh r := by
  unfold http.Server.routesTo at hr
  unfold http.Server.respond http.ServeMux.ServeHTTP
  simp only [http.ServeMux.route, List.foldl] at hr ⊢
  by_cases hm : http.patternMatches p r.path = true
  · simp [hm]
  · simp [hm] at hr

/-- C3: in each of the three programs the server of task A has address
":7000" and answers every request routed to pattern "/" with status 200 and
body `Hello, world!`; the server of task B has address ":8000" and answers
with status 200 and body `How are you?`, whatever the request. -/
theorem C3_servers_fixed_address_and_response (r : http.Request) :
    (∀ o ∈ serversOfTask .helloWorld, ∃ srv, o = some srv ∧ srv.Addr = ":7000" ∧
      (srv.routesTo r "/" = true →
        srv.respond r = { status := some 200, body := http.bytes "Hello, world!" })) ∧
    (∀ o ∈ serversOfTask .howAreYou, ∃ srv, o = some srv ∧ srv.Addr = ":8000" ∧
      (srv.routesTo r "/" = true →
        srv.respond r = { status := some 200, body := http.bytes "How are you?" })) := by
  have hA : serversOfTask .helloWorld =
      List.replicate 3 (some (http.Server.mk ":7000"
        ⟨[("/", [.writeHeader http.StatusOK, .write "Hello, world!"])]⟩)) := by decide
  have hB : serversOfTask .howAreYou =
      List.replicate 3 (some (http.Server.mk ":8000"
        ⟨[("/", [.writeHeader http.StatusOK, .write "How are you?"])]⟩)) := by decide
  constructor
  · intro o ho
    rw [hA] at ho
    obtain rfl := List.eq_of_mem_replicate ho
    refine ⟨_, rfl, rfl, fun hr => ?_⟩
    rw [respond_single_pattern _ _ _ _ hr]
    rfl
  · intro o ho
    rw [hB] at ho
    obtain rfl := List.eq_of_mem_replicate ho
    refine ⟨_, rfl, rfl, fun hr => ?_⟩
    rw [respond_single_pattern _ _ _ _ hr]
    rfl

/-- C3 at the request `GET /`: all three servers of task A are built, route it
to "/" and answer 200 `Hello, world!`. -/
theorem C3_servers_fixed_address_and_response_witness :
    ∀ o ∈ serversOfTask .helloWorld, ∃ srv, o = some srv ∧ srv.Addr = ":7000" ∧
      srv.routesTo getRoot "/" = true ∧
      srv.respond getRoot = { status := some 200, body := http.bytes "Hello, world!" } := by
  intro o ho
  obtain ⟨srv, h1, h2, h3⟩ := (C3_servers_fixed_address_and_response getRoot).1 o ho
  have hr : srv.routesTo getRoot "/" = true := by
    have hA : serversOfTask .helloWorld =
        List.replicate 3 (some (http.Server.mk ":7000"
          ⟨[("/", [.writeHeader http.StatusOK, .write "Hello, world!"])]⟩)) := by decide
    rw [hA] at ho
    obtain rfl := List.eq_of_mem_replicate ho
    cases h1
    decide
  exact ⟨srv, h1, h2, hr, h3 hr⟩

/-- C2: the count main registers on the wait group in program 3 is 1, while
main launches 2 server tasks with `go`: the registered count is not the number
of launched tasks. -/
theorem C2_registered_count_differs_from_launched :
    registeredCount WaitgroupServer.main = 1 ∧ launchedCount WaitgroupServer.main = 2 ∧
      registeredCount WaitgroupServer.main ≠ (launchedCount WaitgroupServer.main : Int) := by
  decide

/-- C1: program 3 reaches a state in which the signal has been received and the
context cancelled, main has passed `wg.Wait()` and returned, and only the
watcher of task A has called `wg.Done()`; the watcher of task B has not. -/
theorem C1_main_passes_wait_before_second_watcher :
    ∃ s, Reachable WaitgroupServer.program s ∧ s.sh.cancelled = true ∧
      mainPassedWait WaitgroupServer.program s = true ∧ s.sh.status = .exited ∧
      watcherDone s .helloWorld = true ∧ watcherDone s .howAreYou = false := by
  have key : (runTrace WaitgroupServer.program State.init traceMainExitsEarly).map
      (fun s => (s.sh.cancelled, mainPassedWait WaitgroupServer.program s, s.sh.status,
        watcherDone s .helloWorld, watcherDone s .howAreYou))
      = some (true, true, .exited, true, false) := by decide
  cases h : runTrace WaitgroupServer.program State.init traceMainExitsEarly with
  | none => rw [h] at key; exact absurd key (by simp)
  | some s =>
    rw [h] at key
    simp only [Option.map_some', Option.some.injEq, Prod.mk.injEq] at key
    exact ⟨s, ⟨_, h⟩, key.1, key.2.1, key.2.2.1, key.2.2.2.1, key.2.2.2.2⟩

/-- C10: program 3 reaches a state in which the wait-group counter is -1 and
the process has panicked: the second watcher calls `wg.Done()` on a counter
that the first watcher has already brought to 0. -/
theorem C10_counter_goes_negative :
    ∃ s, Reachable WaitgroupServer.program s ∧ s.sh.wg = -1 ∧ s.sh.status = .panicked := by
  have key : (runTrace WaitgroupServer.program State.init traceSecondDone).map
      (fun s => (s.sh.wg, s.sh.status)) = some (-1, .panicked) := by decide
  cases h : runTrace WaitgroupServer.program State.init traceSecondDone with
  | none => rw [h] at key; exact absurd key (by simp)
  | some s =>
    rw [h] at key
    simp only [Option.map_some', Option.some.injEq, Prod.mk.injEq] at key
    exact ⟨s, ⟨_, h⟩, key.1, key.2⟩

/-- C4: for every result `r` of `server.Shutdown`, the watcher of a task in
program 3, once the context is cancelled, runs to its end; it calls `Shutdown`
once, prints the "error shutting down" report exactly when `r` is not nil, and
calls `wg.Done()` once, as its last action, so that the counter goes down by
one whatever `r` is. In every reachable state of the program each task has had
at most one call of `Shutdown` and at most one call of `wg.Done()`. -/
theorem C4_watcher_reports_and_calls_done_once (t : Task) (r : Err) (sh : Shared) (lo : Local)
    (hrun : sh.status = .running) (hc : sh.cancelled = true) (hsrv : lo.server.isSome = true) :
    (∃ sh1 lo1 new,
      runSeq (.watcher t) (WaitgroupServer.program (.watcher t)) [r] (sh, lo) = some (sh1, lo1) ∧
      sh1.events = sh.events ++ new ∧
      (Event.Printf (shutdownErrorFormat t) r ∈ new ↔ r ≠ .nil) ∧
      (new.any Event.isPrintf = true ↔ r ≠ .nil) ∧
      new.countP Event.isShutdownCall = 1 ∧
      new.countP Event.isDone = 1 ∧
      new.head? = some (.ShutdownCall t (some (.WithTimeout .Background (5 * Second))) r) ∧
      new.getLast? = some (.Done (.watcher t)) ∧
      sh1.wg = sh.wg - 1) ∧
    (∀ s, Reachable WaitgroupServer.program s →
      markCalls .shutdown s.sh t ≤ 1 ∧ markCalls .done s.sh t ≤ 1) := by
  refine ⟨?_, fun s hs => ⟨reachable_markCalls_le_one .shutdown t s hs,
    reachable_markCalls_le_one .done t s hs⟩⟩
  obtain ⟨srv, hsrv⟩ := Option.isSome_iff_exists.mp hsrv
  by_cases hr : r = .nil <;> cases t <;>
    simp [runSeq, execStmt, WaitgroupServer.program,
      WaitgroupServer.newHelloWorldWaitGracefulServer_watcher,
      WaitgroupServer.newHowAreYouWaitGracefulServer_watcher, Stmt.isCall, hrun, hc, hsrv, hr,
      sharedCtx, Ctx.isDone, Fn.task, Shared.emit, Shared.wgAdd, Event.isPrintf,
      Event.isShutdownCall, Event.isDone, shutdownErrorFormat] <;>
    omega

/-- C4 at a shutdown that times out: the watcher of task A, started with the
counter at 1, prints its report and still brings the counter to 0. -/
theorem C4_watcher_reports_and_calls_done_once_witness :
    ∃ sh1 lo1 new,
      runSeq (.watcher .helloWorld) (WaitgroupServer.program (.watcher .helloWorld))
        [.DeadlineExceeded] (cancelledWith 1, localsWithServer) = some (sh1, lo1) ∧
      sh1.events = (cancelledWith 1).events ++ new ∧
      (Event.Printf (shutdownErrorFormat .helloWorld) .DeadlineExceeded ∈ new ↔
        Err.DeadlineExceeded ≠ .nil) ∧
      (new.any Event.isPrintf = true ↔ Err.DeadlineExceeded ≠ .nil) ∧
      new.countP Event.isShutdownCall = 1 ∧
      new.countP Event.isDone = 1 ∧
      new.head? = some (.ShutdownCall .helloWorld
        (some (.WithTimeout .Background (5 * Second))) .DeadlineExceeded) ∧
      new.getLast? = some (.Done (.watcher .helloWorld)) ∧
      sh1.wg = (cancelledWith 1).wg - 1 :=
  (C4_watcher_reports_and_calls_done_once .helloWorld .DeadlineExceeded (cancelledWith 1)
    localsWithServer (by decide) (by decide) (by decide)).1

/-- C6, refuted: with the counter at 1, one execution of the stop path of task
A leaves the counter at 0, and a second execution leaves it at -1, not 0, and
reaches the negative-counter panic. -/
theorem C6_second_execution_counts_again_and_panics :
    (runStopPath WaitgroupServer.program .helloWorld .nil localsWithServer (cancelledWith 1)).map
        (fun sh => (sh.wg, sh.status)) = some (0, .running) ∧
    ((runStopPath WaitgroupServer.program .helloWorld .nil localsWithServer (cancelledWith 1)).bind
        (runStopPath WaitgroupServer.program .helloWorld .nil localsWithServer)).map
        (fun sh => (sh.wg, sh.status)) = some (-1, .panicked) := by
  decide

/-- C6, amended: every execution of the stop path of a task in program 3 calls
`wg.Done()`. From a counter of at least 1, one execution leaves the counter one
lower and the process running, a second execution leaves it two lower, and the
second execution reaches the negative-counter panic exactly when the counter
was 1. The program does not execute the stop path twice: in every reachable
state `wg.Done()` has been called at most once for each task. -/
theorem C6_each_execution_decrements (t : Task) (r1 r2 : Err) (sh : Shared) (lo : Local)
    (hrun : sh.status = .running) (hsrv : lo.server.isSome = true) (hwg : 1 ≤ sh.wg) :
    (∃ sh1 sh2,
      runStopPath WaitgroupServer.program t r1 lo sh = some sh1 ∧
      runStopPath WaitgroupServer.program t r2 lo sh1 = some sh2 ∧
      sh1.wg = sh.wg - 1 ∧ sh1.status = .running ∧
      sh2.wg = sh.wg - 2 ∧ (sh2.status = .panicked ↔ sh.wg = 1) ∧
      sh1.events.countP Event.isDone = sh.events.countP Event.isDone + 1 ∧
      sh2.events.countP Event.isDone = sh.events.countP Event.isDone + 2) ∧
    (∀ s, Reachable WaitgroupServer.program s → markCalls .done s.sh t ≤ 1) := by
  refine ⟨?_, fun s hs => reachable_markCalls_le_one .done t s hs⟩
  obtain ⟨srv, hsrv⟩ := Option.isSome_iff_exists.mp hsrv
  have h1 : ¬ sh.wg + -1 < 0 := by omega
  by_cases hr1 : r1 = .nil <;> by_cases hr2 : r2 = .nil <;> cases t <;>
    simp [runStopPath, stopPath, runSeq, execStmt, WaitgroupServer.program,
      WaitgroupServer.newHelloWorldWaitGracefulServer_watcher,
      WaitgroupServer.newHowAreYouWaitGracefulServer_watcher, Stmt.isCall, hrun, hsrv, hr1, hr2,
      Fn.task, Shared.emit, Shared.wgAdd, Event.isDone, h1, List.indexOf, List.findIdx,
      List.findIdx.go] <;>
    omega

/-- C6, amended, at a counter of 2 and two successful shutdowns of task A. -/
theorem C6_each_execution_decrements_witness :
    ∃ sh1 sh2,
      runStopPath WaitgroupServer.program .helloWorld .nil localsWithServer (cancelledWith 2)
        = some sh1 ∧
      runStopPath WaitgroupServer.program .helloWorld .nil localsWithServer sh1 = some sh2 ∧
      sh1.wg = (cancelledWith 2).wg - 1 ∧ sh1.status = .running ∧
      sh2.wg = (cancelledWith 2).wg - 2 ∧ (sh2.status = .panicked ↔ (cancelledWith 2).wg = 1) ∧
      sh1.events.countP Event.isDone = (cancelledWith 2).events.countP Event.isDone + 1 ∧
      sh2.events.countP Event.isDone = (cancelledWith 2).events.countP Event.isDone + 2 :=
  (C6_each_execution_decrements .helloWorld .nil .nil (cancelledWith 2) localsWithServer
    (by decide) (by decide) (by decide)).1

/-- C8: in programs 2 and 3, for every value `e` returned by a task's
`server.ListenAndServe`, the task prints its "error starting" report exactly
when `e` is not `http.ErrServerClosed`, then prints its "is closing" line, and
runs to its end. -/
theorem C8_start_error_reported_unless_server_closed (p : Program)
    (hp : p = GracefulServer.program ∨ p = WaitgroupServer.program)
    (t : Task) (e : Err) (sh : Shared) (lo : Local)
    (hrun : sh.status = .running) (hsrv : lo.server.isSome = true) :
    ∃ sh1 lo1 new,
      runSeq (.server t) (fromListen p t) [e] (sh, lo) = some (sh1, lo1) ∧
      sh1.events = sh.events ++ new ∧
      new = (if e = .ErrServerClosed then [] else [Event.Printf (startErrorFormat t) e]) ++
        [Event.Println (closingLine t)] ∧
      (Event.Printf (startErrorFormat t) e ∈ new ↔ e ≠ .ErrServerClosed) ∧
      (new.any Event.isPrintf = true ↔ e ≠ .ErrServerClosed) ∧
      new.getLast? = some (.Println (closingLine t)) := by
  obtain ⟨srv, hsrv⟩ := Option.isSome_iff_exists.mp hsrv
  rcases hp with rfl | rfl <;> by_cases he : e = .ErrServerClosed <;> cases t <;>
    simp [fromListen, runSeq, execStmt, GracefulServer.program, WaitgroupServer.program,
      GracefulServer.newHelloWorldGracefulServer, GracefulServer.newHowAreYouGracefulServer,
      WaitgroupServer.newHelloWorldWaitGracefulServer,
      WaitgroupServer.newHowAreYouWaitGracefulServer, Stmt.isCall, hrun, hsrv, he,
      Shared.emit, Event.isPrintf, startErrorFormat, closingLine, List.indexOf, List.findIdx,
      List.findIdx.go]

/-- C8 at a port that is already bound, for task B of program 2. -/
theorem C8_start_error_reported_unless_server_closed_witness :
    ∃ sh1 lo1 new,
      runSeq (.server .howAreYou) (fromListen GracefulServer.program .howAreYou)
        [.other "listen tcp :8000: bind: address already in use"]
        (Shared.init, localsWithServer) = some (sh1, lo1) ∧
      sh1.events = Shared.init.events ++ new ∧
      new = (if Err.other "listen tcp :8000: bind: address already in use" = .ErrServerClosed
          then []
          else [Event.Printf (startErrorFormat .howAreYou)
            (.other "listen tcp :8000: bind: address already in use")]) ++
        [Event.Println (closingLine .howAreYou)] ∧
      (Event.Printf (startErrorFormat .howAreYou)
          (.other "listen tcp :8000: bind: address already in use") ∈ new ↔
        Err.other "listen tcp :8000: bind: address already in use" ≠ .ErrServerClosed) ∧
      (new.any Event.isPrintf = true ↔
        Err.other "listen tcp :8000: bind: address already in use" ≠ .ErrServerClosed) ∧
      new.getLast? = some (.Println (closingLine .howAreYou)) :=
  C8_start_error_reported_unless_server_closed GracefulServer.program (Or.inl rfl) .howAreYou
    (.other "listen tcp :8000: bind: address already in use") Shared.init localsWithServer
    (by decide) (by decide)

/-- C9: in programs 2 and 3 the watcher of either task, once the context is
cancelled, reaches its call of `server.Shutdown` and passes it the context
`context.WithTimeout(context.Background(), 5*time.Second)`: the same for both
tasks, derived from the background context and not from the shared one, so it
is not done while less than 5 seconds have elapsed since its creation, although
the shared context is done. -/
theorem C9_shutdown_context_is_fresh_five_seconds (p : Program)
    (hp : p = GracefulServer.program ∨ p = WaitgroupServer.program)
    (t : Task) (r : Err) (sh : Shared) (lo : Local) (elapsed : Nat)
    (hrun : sh.status = .running) (hc : sh.cancelled = true) (hsrv : lo.server.isSome = true)
    (hel : elapsed < 5 * Second) :
    ∃ sh1 lo1 ctx,
      runSeq (.watcher t) (untilShutdown p t) [r] (sh, lo) = some (sh1, lo1) ∧
      sh1.events.getLast? = some (.ShutdownCall t (some ctx) r) ∧
      (sh1.events.countP Event.isShutdownCall = sh.events.countP Event.isShutdownCall + 1) ∧
      ctx = .WithTimeout .Background (5 * Second) ∧
      ctx.isDone sh1.cancelled elapsed = false ∧
      sharedCtx.isDone sh1.cancelled elapsed = true := by
  obtain ⟨srv, hsrv⟩ := Option.isSome_iff_exists.mp hsrv
  have hd : ¬ 5 * Second ≤ elapsed := by omega
  rcases hp with rfl | rfl <;> cases t <;>
    simp [untilShutdown, runSeq, execStmt, GracefulServer.program, WaitgroupServer.program,
      GracefulServer.newHelloWorldGracefulServer_watcher,
      GracefulServer.newHowAreYouGracefulServer_watcher,
      WaitgroupServer.newHelloWorldWaitGracefulServer_watcher,
      WaitgroupServer.newHowAreYouWaitGracefulServer_watcher, Stmt.isCall, hrun, hc, hsrv,
      sharedCtx, Ctx.isDone, Fn.task, Shared.emit, Event.isShutdownCall, hd, List.indexOf,
      List.findIdx, List.findIdx.go]

/-- C9 for task A of program 2, 4.9 seconds after the context was created. -/
theorem C9_shutdown_context_is_fresh_five_seconds_witness :
    ∃ sh1 lo1 ctx,
      runSeq (.watcher .helloWorld) (untilShutdown GracefulServer.program .helloWorld) [.nil]
        (cancelledWith 0, localsWithServer) = some (sh1, lo1) ∧
      sh1.events.getLast? = some (.ShutdownCall .helloWorld (some ctx) .nil) ∧
      (sh1.events.countP Event.isShutdownCall
        = (cancelledWith 0).events.countP Event.isShutdownCall + 1) ∧
      ctx = .WithTimeout .Background (5 * Second) ∧
      ctx.isDone sh1.cancelled 4900000000 = false ∧
      sharedCtx.isDone sh1.cancelled 4900000000 = true :=
  C9_shutdown_context_is_fresh_five_seconds GracefulServer.program (Or.inl rfl) .helloWorld .nil
    (cancelledWith 0) localsWithServer 4900000000 (by decide) (by decide) (by decide)
    (by decide)

/-- C7: in programs 2 and 3, every move of a task function from its call of
`server.ListenAndServe` on, whatever value that call returns, leaves the
cancellation flag, the wait-group counter, the servers shut down so far, the
process status and all other goroutines as they were, and at most appends
output; and every step that changes the wait-group counter is either the
`wg.Add` of main, before any task is launched, or the `wg.Done()` of a watcher,
after that watcher's call of `Shutdown`, which lowers the counter by one. -/
theorem C7_main_path_only_prints (p : Program)
    (hp : p = GracefulServer.program ∨ p = WaitgroupServer.program) :
    (∀ (s s1 : State) (i : Nat) (g : Goroutine) (t : Task) (input : Option Err),
      s.pool[i]? = some g → g.fn = .server t →
      (p (.server t)).indexOf .ListenAndServe ≤ g.pc →
      stepGoroutine p s i input = some s1 →
      s1.sh.cancelled = s.sh.cancelled ∧ s1.sh.wg = s.sh.wg ∧
      s1.sh.shutdown = s.sh.shutdown ∧ s1.sh.status = s.sh.status ∧
      s1.pool.length = s.pool.length ∧ (∀ j, j ≠ i → s1.pool[j]? = s.pool[j]?) ∧
      ∃ new, s1.sh.events = s.sh.events ++ new ∧ ∀ ev ∈ new, ev.isOutput = true) ∧
    (∀ (s s1 : State) (a : Action), step p s a = some s1 → s1.sh.wg ≠ s.sh.wg →
      ∃ i g, a = .run i ∧ s.pool[i]? = some g ∧
        ((g.fn = .main ∧ g.next p = some (.wgAdd (s1.sh.wg - s.sh.wg)) ∧
            launchedCount ((p .main).take g.pc) = 0) ∨
         (∃ t, g.fn = .watcher t ∧ g.next p = some .wgDone ∧
            Stmt.Shutdown ∈ (p (.watcher t)).take g.pc ∧ s1.sh.wg = s.sh.wg - 1))) := by
  constructor
  · intro s s1 i g t input hg hfn hpc hstep
    obtain ⟨g1, hg1, hcase⟩ := stepGoroutine_inv hstep
    rw [hg] at hg1
    cases hg1
    rcases hcase with ⟨st, sh1, lo1, sp, hst, hex, hsh, hpool⟩ |
      ⟨hnone, hrun, hret, hin, hsh, hpool⟩
    · rw [hfn] at hst
      have hmem := mem_drop_of_getElem? hpc hst
      have hq : st.onlyPrints = true := fromListen_onlyPrints p hp t st hmem
      obtain ⟨h1, h2, h3, _, _, _, h7, h8, h9⟩ := execStmt_onlyPrints hex hq
      subst h8
      rw [hsh, hpool]
      refine ⟨h3, h2, h7, h1, by simp, ?_, h9⟩
      intro j hj
      simp [List.getElem?_set_ne (Ne.symm hj)]
    · rw [hsh, hpool, hfn]
      refine ⟨rfl, rfl, rfl, rfl, by simp, ?_, [], by simp, by simp⟩
      intro j hj
      simp [List.getElem?_set_ne (Ne.symm hj)]
  · intro s s1 a hstep hwg
    cases a with
    | signal sig =>
      exfalso; apply hwg
      simp only [step, deliver] at hstep
      split at hstep
      · simp at hstep
      · split at hstep
        · split at hstep <;> simp at hstep <;> subst hstep <;> rfl
        · simp at hstep; subst hstep; rfl
    | run i =>
      obtain ⟨g, hg, -, hcase⟩ := stepGoroutine_wg hstep hwg
      refine ⟨i, g, rfl, hg, ?_⟩
      rcases hcase with ⟨d, hst, hd⟩ | ⟨hst, hd⟩
      · left
        obtain ⟨hf, hl⟩ := wgAdd_only_in_main_before_launch p hp g.fn g.pc d hst
        have hd2 : s1.sh.wg - s.sh.wg = d := by omega
        exact ⟨hf, by rw [hd2]; exact hst, hl⟩
      · right
        obtain ⟨t, hf, hs⟩ := wgDone_only_in_watcher_after_shutdown p hp g.fn g.pc hst
        exact ⟨t, hf, hst, hs, hd⟩
    | ret i e =>
      obtain ⟨g, hg, hin, -⟩ := stepGoroutine_wg hstep hwg
      cases hin

/-- C7 in program 3, where the `ListenAndServe` of task A fails because its
port is already bound: the step is taken and changes neither the flag, nor the
counter, nor the servers, nor the goroutine of task B. -/
theorem C7_main_path_only_prints_witness :
    ∃ s1, stepGoroutine WaitgroupServer.program stateAtListen 1
        (some (.other "listen tcp :7000: bind: address already in use")) = some s1 ∧
      s1.sh.cancelled = stateAtListen.sh.cancelled ∧ s1.sh.wg = stateAtListen.sh.wg ∧
      s1.sh.shutdown = stateAtListen.sh.shutdown ∧ s1.sh.status = stateAtListen.sh.status ∧
      s1.pool.length = stateAtListen.pool.length ∧
      (∀ j, j ≠ 1 → s1.pool[j]? = stateAtListen.pool[j]?) ∧
      ∃ new, s1.sh.events = stateAtListen.sh.events ++ new ∧ ∀ ev ∈ new, ev.isOutput = true := by
  cases h : stepGoroutine WaitgroupServer.program stateAtListen 1
      (some (.other "listen tcp :7000: bind: address already in use")) with
  | none => exact absurd h (by decide)
  | some s1 =>
    exact ⟨s1, rfl, (C7_main_path_only_prints WaitgroupServer.program (Or.inr rfl)).1
      stateAtListen s1 1 goroutineAtListen .helloWorld _ (by decide) (by decide) (by decide) h⟩

/-- C5: in programs 2 and 3 a goroutine at `<-ctx.Done()` moves on as soon as
the context is cancelled (and waits while it is not); no step resets the
cancellation flag; and a task function that is started when the context is
already cancelled gets, together with its watcher and without any other
goroutine moving, to the call of `server.Shutdown` with the 5 second timeout
context. -/
theorem C5_cancellation_is_sticky_and_observed (p : Program)
    (hp : p = GracefulServer.program ∨ p = WaitgroupServer.program) :
    (∀ (s : State) (i : Nat) (g : Goroutine),
      s.sh.status = .running → s.pool[i]? = some g → g.next p = some .recvDone →
      (s.sh.cancelled = true →
        ∃ s1, step p s (.run i) = some s1 ∧ s1.sh = s.sh ∧
          s1.pool[i]? = some (g.advance g.lo)) ∧
      (s.sh.cancelled = false → step p s (.run i) = none)) ∧
    (∀ (s s1 : State) (a : Action), step p s a = some s1 →
      s.sh.cancelled = true → s1.sh.cancelled = true) ∧
    (∀ (s : State) (i : Nat) (t : Task) (lo0 : Local) (r : Err),
      s.sh.status = .running → s.sh.cancelled = true →
      s.pool[i]? = some (spawn lo0 (.server t)) →
      (∀ a ∈ startThenStop p t i s.pool.length r,
        a = .run i ∨ a = .run s.pool.length ∨ a = .ret s.pool.length r) ∧
      ∃ s1, runTrace p s (startThenStop p t i s.pool.length r) = some s1 ∧
        s1.sh.events.getLast? =
          some (.ShutdownCall t (some (.WithTimeout .Background (5 * Second))) r) ∧
        t ∈ s1.sh.shutdown) := by
  refine ⟨?_, ?_, ?_⟩
  · intro s i g hrun hg hnext
    have hlt : i < s.pool.length := (List.getElem?_eq_some.mp hg).1
    constructor
    · intro hc
      have hex : execStmt g.fn s.sh g.lo .recvDone none = some (s.sh, g.lo, none) := by
        simp [execStmt, hrun, hc, sharedCtx, Ctx.isDone]
      have hstep := stepGoroutine_exec (p := p) hg hnext hex
      refine ⟨_, hstep, rfl, ?_⟩
      simp [hlt]
    · intro hc
      have hex : execStmt g.fn s.sh g.lo .recvDone none = none := by
        simp [execStmt, hrun, hc, sharedCtx, Ctx.isDone]
      unfold Goroutine.next at hnext
      simp [step, stepGoroutine, hg, hnext, hex]
  · intro s s1 a hstep hc
    cases a with
    | signal sig =>
      simp only [step, deliver] at hstep
      split at hstep
      · simp at hstep
      · split at hstep
        · split at hstep <;> simp at hstep <;> subst hstep <;> exact hc
        · simp at hstep; subst hstep; exact hc
    | run i =>
      obtain ⟨g, -, hcase⟩ := stepGoroutine_inv hstep
      rcases hcase with ⟨st, sh1, lo1, sp, -, hex, hsh, -⟩ | ⟨-, -, -, -, hsh, -⟩
      · rw [hsh]; exact (execStmt_cancelled hex).1 hc
      · rw [hsh]; split <;> exact hc
    | ret i e =>
      obtain ⟨g, -, hcase⟩ := stepGoroutine_inv hstep
      rcases hcase with ⟨st, sh1, lo1, sp, -, hex, hsh, -⟩ | ⟨-, -, -, -, hsh, -⟩
      · rw [hsh]; exact (execStmt_cancelled hex).1 hc
      · rw [hsh]; split <;> exact hc
  · intro s i t lo0 r hrun hc hg
    refine ⟨?_, start_after_cancel p hp s i t lo0 r hrun hc hg⟩
    intro a ha
    simp only [startThenStop, List.mem_append, List.mem_singleton] at ha
    rcases ha with (ha | ha) | ha
    · rcases actionsOf_mem i _ _ a ha with h | ⟨e, he, -⟩
      · exact Or.inl h
      · simp at he
    · exact Or.inl ha
    · rcases actionsOf_mem _ _ _ a ha with h | ⟨e, he, h⟩
      · exact Or.inr (Or.inl h)
      · simp only [List.mem_singleton] at he
        subst he
        exact Or.inr (Or.inr h)

/-- C5 in program 3, in the state where main has cancelled the context before
task A has executed a statement: task A and its watcher get to the call of
`server.Shutdown`, here one that times out. -/
theorem C5_cancellation_is_sticky_and_observed_witness :
    ∃ s1, runTrace WaitgroupServer.program stateCancelledBeforeStart
        (startThenStop WaitgroupServer.program .helloWorld 1
          stateCancelledBeforeStart.pool.length .DeadlineExceeded) = some s1 ∧
      s1.sh.events.getLast? =
        some (.ShutdownCall .helloWorld (some (.WithTimeout .Background (5 * Second)))
          .DeadlineExceeded) ∧
      Task.helloWorld ∈ s1.sh.shutdown :=
  ((C5_cancellation_is_sticky_and_observed WaitgroupServer.program (Or.inr rfl)).2.2
    stateCancelledBeforeStart 1 .helloWorld Local.init .DeadlineExceeded
    (by decide) (by decide) (by decide)).2

end ConcurrentWebservers
